import Mathlib

set_option maxRecDepth 4000

/-!
# Verification of the painting editor's canvas state engine

Shallow embedding of the editor's core modules and proofs about them:

* `History` — the per-layer history manager (src/history.js, per-layer revision).
* `Viewport` — pan/zoom state and coordinate transforms (src/viewport.js and
  src/old.js).
* `Layers` — the layer stack (src/layers.js).
* `Selection` — the floating-selection engine (src/selection.js).
* `App` — the UI-level wiring that combines them (src/ui.js and its latest
  revision in src/unnamed/part_002 / part_004).

Pixel surfaces and the host 2D-canvas drawing primitives (drawImage,
putImageData, destination-out fill) are external capabilities; they are
embedded as opaque type parameters and function parameters, while every
branch, guard and list manipulation of the editor's own code is translated
directly.
-/

namespace Painting

/-! ## Per-layer history manager (src/history.js, lines 86-183)

A layer's history is a pair of stacks of full-frame snapshots.  JS arrays
`push`/`pop` at the end and `shift` at the front, so the Lean lists are kept
oldest-first: `push` appends, `shift` drops the head. -/

structure History (α : Type) where
  undoStack : List α
  redoStack : List α
deriving DecidableEq

variable {α : Type}

/-- `initializeHistoryForLayer` (src/history.js lines 95-99): a fresh history
holds the single baseline snapshot and an empty redo stack. -/
def initializeHistoryForLayer (init : α) : History α :=
  { undoStack := [init], redoStack := [] }

/-- `saveState` (src/history.js lines 116-125): clear the redo stack, evict
the oldest entry when the stack already holds more than 30 entries, then push
the new snapshot. -/
def saveState (h : History α) (snap : α) : History α :=
  { undoStack :=
      (if h.undoStack.length > 30 then h.undoStack.tail else h.undoStack) ++ [snap],
    redoStack := [] }

/-- `undo` (src/history.js lines 142-150): when more than one entry remains,
pop the top onto the redo stack; the new top is the state restored to the
layer's surface. -/
def History.undo (h : History α) : History α :=
  if h.undoStack.length > 1 then
    { undoStack := h.undoStack.dropLast,
      redoStack := h.redoStack ++ h.undoStack.getLast?.toList }
  else h

/-- `redo` (src/history.js lines 157-165): when the redo stack is non-empty,
pop its top back onto the undo stack. -/
def History.redo (h : History α) : History α :=
  match h.redoStack.getLast? with
  | none => h
  | some nxt =>
      { undoStack := h.undoStack ++ [nxt], redoStack := h.redoStack.dropLast }

/-- One user-visible history operation on a single layer's stacks. -/
inductive HistOp (α : Type) where
  | save (snap : α)
  | undo
  | redo
deriving DecidableEq

def History.applyOp (h : History α) : HistOp α → History α
  | .save snap => saveState h snap
  | .undo => h.undo
  | .redo => h.redo

def History.applyOps (h : History α) (ops : List (HistOp α)) : History α :=
  ops.foldl History.applyOp h

/-- The invariant actually maintained by the code: at least one entry, and at
most 31 entries counting both stacks together. -/
def History.Inv (h : History α) : Prop :=
  1 ≤ h.undoStack.length ∧ h.undoStack.length + h.redoStack.length ≤ 31

theorem History.inv_applyOp {h : History α} (hInv : h.Inv) (op : HistOp α) :
    (h.applyOp op).Inv := by
  obtain ⟨h1, h2⟩ := hInv
  cases op with
  | save snap =>
      simp only [History.applyOp, saveState, History.Inv, List.length_append,
        List.length_cons, List.length_nil]
      split <;> simp_all <;> omega
  | undo =>
      simp only [History.applyOp, History.undo, History.Inv]
      split
      · next hlen =>
          have hne : h.undoStack ≠ [] := by
            intro hc; rw [hc] at hlen; simp at hlen
          have : h.undoStack.getLast? = some (h.undoStack.getLast hne) :=
            List.getLast?_eq_getLast _ hne
          simp [this, List.length_dropLast]
          omega
      · exact ⟨h1, h2⟩
  | redo =>
      simp only [History.applyOp, History.redo, History.Inv]
      cases hr : h.redoStack.getLast? with
      | none => exact ⟨h1, h2⟩
      | some nxt =>
          have hne : h.redoStack ≠ [] := by
            intro hc; rw [hc] at hr; simp at hr
          have : 1 ≤ h.redoStack.length := List.length_pos.mpr hne
          simp [List.length_dropLast]
          omega

theorem History.inv_applyOps {h : History α} (hInv : h.Inv)
    (ops : List (HistOp α)) : (h.applyOps ops).Inv := by
  induction ops generalizing h with
  | nil => exact hInv
  | cons op ops ih => exact ih (h.inv_applyOp hInv op)

/-- C3 counterexample: the claim says the undo stack never exceeds 30
entries, but `saveState` tests `length > 30` before pushing, so 30 saves
after the baseline leave the stack with 31 entries. -/
theorem c3_history_bound_counterexample :
    ((Painting.initializeHistoryForLayer 0).applyOps
        (List.replicate 30 (Painting.HistOp.save 1))).undoStack.length = 31 := by
  decide

/-- C3 (amended): for every layer with an initialized history, after any
sequence of save, undo and redo calls the undo stack holds at least 1 and at
most 31 entries (`saveState` evicts the oldest entry only once the stack
already holds 31, one more than the claimed 30). -/
theorem c3_history_bound_amended (init : ℕ) (ops : List (Painting.HistOp ℕ)) :
    1 ≤ ((Painting.initializeHistoryForLayer init).applyOps ops).undoStack.length ∧
    ((Painting.initializeHistoryForLayer init).applyOps ops).undoStack.length ≤ 31 := by
  have h := History.inv_applyOps (h := Painting.initializeHistoryForLayer init)
    (by constructor <;> simp [Painting.initializeHistoryForLayer]) ops
  exact ⟨h.1, by have := h.2; omega⟩

/-! ## Viewport transform (src/viewport.js and src/old.js)

Coordinates are embedded as rationals; the floating-point tolerance of the
spec becomes exact equality over `ℚ`. -/

structure Viewport where
  zoom : ℚ
  offsetX : ℚ
  offsetY : ℚ
deriving DecidableEq

/-- The module-level defaults of src/viewport.js lines 3-5. -/
def initViewport : Viewport := { zoom := 1, offsetX := 0, offsetY := 0 }

/-- `zoomOnWheel` (src/viewport.js lines 54-76): remember the world point
under the cursor, multiply or divide the zoom by 1.1 according to the wheel
direction, clamp to [0.1, 20], then recompute the offsets so the same world
point stays under the cursor. -/
def zoomOnWheel (v : Viewport) (mouseX mouseY deltaY : ℚ) : Viewport :=
  let worldX := (mouseX - v.offsetX) / v.zoom
  let worldY := (mouseY - v.offsetY) / v.zoom
  let z := if deltaY < 0 then v.zoom * (11/10) else v.zoom / (11/10)
  let zc := max (1/10) (min z 20)
  { zoom := zc, offsetX := mouseX - worldX * zc, offsetY := mouseY - worldY * zc }

/-- `pan` (src/viewport.js lines 100-112): add the pointer delta to the
offsets; the zoom factor is untouched. -/
def pan (v : Viewport) (dx dy : ℚ) : Viewport :=
  { v with offsetX := v.offsetX + dx, offsetY := v.offsetY + dy }

inductive ViewportOp where
  | wheel (mouseX mouseY deltaY : ℚ)
  | panBy (dx dy : ℚ)

def applyViewportOp (v : Viewport) : ViewportOp → Viewport
  | .wheel mx my dy => zoomOnWheel v mx my dy
  | .panBy dx dy => pan v dx dy

def applyViewportOps (v : Viewport) (ops : List ViewportOp) : Viewport :=
  ops.foldl applyViewportOp v

/-- `getTransformedPoint` (src/old.js lines 354-366): scale the incoming CSS
coordinates by the device-pixel ratio, then invert pan and zoom. -/
def getTransformedPointOld (v : Viewport) (dpr x y : ℚ) : ℚ × ℚ :=
  ((x * dpr - v.offsetX) / v.zoom, (y * dpr - v.offsetY) / v.zoom)

/-- The forward render transform set by `applyTransform` (src/old.js lines
342-345): the canvas matrix `(zoom, 0, 0, zoom, offsetX, offsetY)` maps a
model point to `model * zoom + offset` in backing-store pixels, which the
display divides by the device-pixel ratio. -/
def modelToDevice (v : Viewport) (dpr mx my : ℚ) : ℚ × ℚ :=
  ((mx * v.zoom + v.offsetX) / dpr, (my * v.zoom + v.offsetY) / dpr)

/-- `zoomOnWheel` (src/old.js lines 373-403): same anchor-preserving update,
working in backing-store pixels via the device-pixel ratio, with the zoom
clamped to [0.1, 10]. -/
def zoomOnWheelOld (v : Viewport) (dpr mouseX mouseY deltaY : ℚ) : Viewport :=
  let p := getTransformedPointOld v dpr mouseX mouseY
  let z := if deltaY < 0 then v.zoom * (11/10) else v.zoom / (11/10)
  let zc := max (1/10) (min z 10)
  let newScreenX := p.1 * zc + v.offsetX
  let newScreenY := p.2 * zc + v.offsetY
  { zoom := zc,
    offsetX := v.offsetX + (mouseX * dpr - newScreenX),
    offsetY := v.offsetY + (mouseY * dpr - newScreenY) }

inductive ViewportOpOld where
  | wheel (dpr mouseX mouseY deltaY : ℚ)
  | panBy (dx dy : ℚ)

def applyViewportOpOld (v : Viewport) : ViewportOpOld → Viewport
  | .wheel dpr mx my dy => zoomOnWheelOld v dpr mx my dy
  | .panBy dx dy => pan v dx dy

def applyViewportOpsOld (v : Viewport) (ops : List ViewportOpOld) : Viewport :=
  ops.foldl applyViewportOpOld v

theorem zoom_range_applyViewportOps (v : Viewport)
    (hv : 1/10 ≤ v.zoom ∧ v.zoom ≤ 20) (ops : List ViewportOp) :
    1/10 ≤ (applyViewportOps v ops).zoom ∧ (applyViewportOps v ops).zoom ≤ 20 := by
  induction ops generalizing v with
  | nil => exact hv
  | cons op ops ih =>
      refine ih _ ?_
      cases op with
      | wheel mx my dy =>
          constructor
          · exact le_max_left _ _
          · exact max_le (by norm_num) (min_le_right _ _)
      | panBy dx dy => exact hv

theorem zoom_range_applyViewportOpsOld (v : Viewport)
    (hv : 1/10 ≤ v.zoom ∧ v.zoom ≤ 20) (ops : List ViewportOpOld) :
    1/10 ≤ (applyViewportOpsOld v ops).zoom ∧ (applyViewportOpsOld v ops).zoom ≤ 20 := by
  induction ops generalizing v with
  | nil => exact hv
  | cons op ops ih =>
      refine ih _ ?_
      cases op with
      | wheel dpr mx my dy =>
          constructor
          · exact le_max_left _ _
          · exact max_le (by norm_num) (le_trans (min_le_right _ _) (by norm_num))
      | panBy dx dy => exact hv

/-- C5: starting from the default viewport, after any sequence of wheel-zoom
and pan operations the zoom factor stays within [0.1, 20]; this holds both
for the live module (src/viewport.js, clamp to [0.1, 20]) and for the legacy
module (src/old.js, clamp to [0.1, 10] ⊆ [0.1, 20]). -/
theorem c5_zoom_clamped (ops : List ViewportOp) (opsOld : List ViewportOpOld) :
    (1/10 ≤ (applyViewportOps initViewport ops).zoom ∧
      (applyViewportOps initViewport ops).zoom ≤ 20) ∧
    (1/10 ≤ (applyViewportOpsOld initViewport opsOld).zoom ∧
      (applyViewportOpsOld initViewport opsOld).zoom ≤ 20) :=
  ⟨zoom_range_applyViewportOps _ (by constructor <;> norm_num [initViewport]) ops,
   zoom_range_applyViewportOpsOld _ (by constructor <;> norm_num [initViewport]) opsOld⟩

/-- C2: `getTransformedPoint` of src/old.js is the exact inverse of the
forward render transform: mapping a screen point to model space and back
yields the same point, for every zoom in [0.1, 20], every pan offset and
every positive device-pixel ratio. -/
theorem c2_transform_roundtrip (v : Viewport) (dpr px py : ℚ)
    (h1 : 1/10 ≤ v.zoom) (h2 : v.zoom ≤ 20) (hdpr : 0 < dpr) :
    modelToDevice v dpr (getTransformedPointOld v dpr px py).1
      (getTransformedPointOld v dpr px py).2 = (px, py) := by
  have hz : v.zoom ≠ 0 := by positivity
  have hd : dpr ≠ 0 := ne_of_gt hdpr
  simp only [modelToDevice, getTransformedPointOld, Prod.mk.injEq]
  constructor <;> (field_simp; try ring)

/-- C2 witness: the round-trip theorem applied at zoom 2, offsets (3, 4),
device-pixel ratio 2 and screen point (5, 7). -/
theorem c2_transform_roundtrip_witness :
    (1/10 : ℚ) ≤ 2 ∧ (2 : ℚ) ≤ 20 ∧ (0 : ℚ) < 2 ∧
    modelToDevice ⟨2, 3, 4⟩ 2 (getTransformedPointOld ⟨2, 3, 4⟩ 2 5 7).1
      (getTransformedPointOld ⟨2, 3, 4⟩ 2 5 7).2 = (5, 7) :=
  ⟨by norm_num, by norm_num, by norm_num,
   c2_transform_roundtrip ⟨2, 3, 4⟩ 2 5 7 (by norm_num) (by norm_num) (by norm_num)⟩

/-! ## Raster layer stack (src/layers.js)

A layer is embedded as its identifier and its pixel surface (an opaque type
parameter); the presentation fields (name, visibility flag, opacity) play no
part in the claims. The list keeps the storage order of src/layers.js: index
0 is the top layer. -/

structure Layer (Img : Type) where
  id : ℕ
  surface : Img
deriving DecidableEq

structure LayerStore (Img : Type) where
  layers : List (Layer Img)
  activeLayerId : Option ℕ
deriving DecidableEq

variable {Img : Type}

/-- `getActiveLayer` (src/layers.js): the layer whose id equals the active
id, when any. -/
def getActiveLayer (s : LayerStore Img) : Option (Layer Img) :=
  s.layers.find? (fun l => s.activeLayerId == some l.id)

/-- `deleteActiveLayer` (src/layers.js lines 53-73): refuse when at most one
layer remains; otherwise splice out the layer at the index of the active id,
and make active the layer of the resulting order at index `max 0 (index-1)`
(`none` when that index is out of range). Returns the deleted layer. -/
def deleteActiveLayer (s : LayerStore Img) : Option (Layer Img) × LayerStore Img :=
  if s.layers.length ≤ 1 then (none, s)
  else
    match s.layers.findIdx? (fun l => s.activeLayerId == some l.id) with
    | none => (none, s)
    | some index =>
        let rest := s.layers.eraseIdx index
        let newActiveId := (rest.get? (index - 1)).map Layer.id
        (s.layers.get? index, { layers := rest, activeLayerId := newActiveId })

/-- The concrete three-layer store of the C7 counterexample: ids 1, 2, 3 from
top to bottom, layer 2 active (so the deleted layer is neither first nor
last). -/
def c7Store : LayerStore Unit :=
  { layers := [⟨1, ()⟩, ⟨2, ()⟩, ⟨3, ()⟩], activeLayerId := some 2 }

/-- C7 counterexample: deleting active layer 2 (index 1 of 3, not last)
leaves layers [1, 3]; the layer now at the deleted index is id 3, but the
code selects id 1 — the layer at the previous index — contradicting the
claim that the layer now at the same index is selected when the deleted
layer was not last. -/
theorem c7_delete_active_counterexample :
    (deleteActiveLayer c7Store).2.layers = [⟨1, ()⟩, ⟨3, ()⟩] ∧
    ((deleteActiveLayer c7Store).2.layers.get? 1).map Layer.id = some 3 ∧
    (deleteActiveLayer c7Store).2.activeLayerId = some 1 ∧
    (deleteActiveLayer c7Store).2.activeLayerId ≠ some 3 := by
  decide

/-- C7 (amended): deleteActiveLayer removes the active layer from the order
and fails with no mutation when exactly one layer remains; on success the new
active layer is the one at the previous index (the layer above the deleted
one), falling back to the layer now at index 0 when the deleted layer was
first. -/
theorem c7_delete_active_amended (s : LayerStore Img) :
    (s.layers.length ≤ 1 → deleteActiveLayer s = (none, s)) ∧
    (∀ i, 2 ≤ s.layers.length →
      s.layers.findIdx? (fun l => s.activeLayerId == some l.id) = some i →
      deleteActiveLayer s =
        (s.layers.get? i,
         { layers := s.layers.eraseIdx i,
           activeLayerId := ((s.layers.eraseIdx i).get? (i - 1)).map Layer.id })) := by
  constructor
  · intro h
    simp [deleteActiveLayer, h]
  · intro i h2 hidx
    have hgt : ¬ s.layers.length ≤ 1 := by omega
    simp [deleteActiveLayer, hgt, hidx]

/-- C7 witness: the amended theorem applied to the three-layer store (both
the singleton case, on a one-layer store, and the success case at index 1). -/
theorem c7_delete_active_amended_witness :
    ((LayerStore.mk ([⟨5, ()⟩] : List (Layer Unit)) (some 5)).layers.length ≤ 1 ∧
      deleteActiveLayer (LayerStore.mk [⟨5, ()⟩] (some 5)) =
        (none, LayerStore.mk [⟨5, ()⟩] (some 5))) ∧
    (2 ≤ c7Store.layers.length ∧
      c7Store.layers.findIdx? (fun l => c7Store.activeLayerId == some l.id) = some 1 ∧
      deleteActiveLayer c7Store =
        (c7Store.layers.get? 1,
         { layers := c7Store.layers.eraseIdx 1,
           activeLayerId := ((c7Store.layers.eraseIdx 1).get? 0).map Layer.id })) :=
  ⟨⟨by decide,
    (c7_delete_active_amended (LayerStore.mk [⟨5, ()⟩] (some 5))).1 (by decide)⟩,
   ⟨by decide, by decide,
    (c7_delete_active_amended c7Store).2 1 (by decide) (by decide)⟩⟩

/-! ## Floating selection engine (src/selection.js)

The selection state mirrors the module-level object of src/selection.js.
Points are rationals; `β` is the opaque pixel-surface type of the offscreen
`tempCanvas` (`tempSurface = none` embeds the null canvas/context pair), and
the full-frame layer surface type stays the `Img` parameter. -/

/-- One entry of the sub-history: the object pushed by `saveSelectionState`
(src/selection.js lines 279-283): the region pixels and the position of the
region at the time of the save. -/
structure SelSnapshot (β : Type) where
  imageData : β
  x : ℚ
  y : ℚ
deriving DecidableEq

structure SelectionState (β : Type) where
  isDrawing : Bool
  isFloating : Bool
  path : List (ℚ × ℚ)
  imageData : Option β
  boundingBox : Option (ℚ × ℚ × ℤ × ℤ)
  currentX : ℚ
  currentY : ℚ
  moveStartX : ℚ
  moveStartY : ℚ
  originLayerId : Option ℕ
  tempSurface : Option β
  tempHistory : List (SelSnapshot β)
  tempRedoStack : List (SelSnapshot β)
deriving DecidableEq

variable {β : Type}

/-- `clearSelection` (src/selection.js lines 153-160): reset every field. -/
def clearSelection : SelectionState β :=
  { isDrawing := false, isFloating := false, path := [], imageData := none,
    boundingBox := none, currentX := 0, currentY := 0, moveStartX := 0,
    moveStartY := 0, originLayerId := none, tempSurface := none,
    tempHistory := [], tempRedoStack := [] }

/-- `saveSelectionState` (src/selection.js lines 277-286): no-op while no
offscreen surface exists; otherwise push the current region pixels and
position onto the sub-history and clear the sub-redo stack.  No capacity
check of any kind is performed. -/
def saveSelectionState (sel : SelectionState β) : SelectionState β :=
  match sel.tempSurface with
  | none => sel
  | some surf =>
      { sel with
          tempHistory := sel.tempHistory ++ [⟨surf, sel.currentX, sel.currentY⟩],
          tempRedoStack := [] }

/-- `undoSelectionChange` (src/selection.js lines 288-299). -/
def undoSelectionChange (sel : SelectionState β) : SelectionState β :=
  if sel.tempHistory.length < 2 then sel
  else
    match sel.tempHistory.getLast?, sel.tempHistory.dropLast.getLast? with
    | some cur, some prev =>
        { sel with
            tempHistory := sel.tempHistory.dropLast,
            tempRedoStack := sel.tempRedoStack ++ [cur],
            tempSurface := some prev.imageData,
            currentX := prev.x, currentY := prev.y }
    | _, _ => sel

/-- `redoSelectionChange` (src/selection.js lines 301-311). -/
def redoSelectionChange (sel : SelectionState β) : SelectionState β :=
  match sel.tempRedoStack.getLast? with
  | none => sel
  | some nxt =>
      { sel with
          tempHistory := sel.tempHistory ++ [nxt],
          tempRedoStack := sel.tempRedoStack.dropLast,
          tempSurface := some nxt.imageData,
          currentX := nxt.x, currentY := nxt.y }

theorem tempSurface_saveSelectionState (sel : SelectionState β) :
    (saveSelectionState sel).tempSurface = sel.tempSurface := by
  unfold saveSelectionState
  cases h : sel.tempSurface
  · exact h
  · rfl

theorem tempHistory_length_iterate_save (k : ℕ) (sel : SelectionState β)
    (surf : β) (h : sel.tempSurface = some surf) :
    (saveSelectionState^[k] sel).tempHistory.length = sel.tempHistory.length + k := by
  induction k generalizing sel surf with
  | zero => simp
  | succ k ih =>
      rw [Function.iterate_succ_apply]
      have hs : (saveSelectionState sel).tempSurface = some surf :=
        (tempSurface_saveSelectionState sel).trans h
      rw [ih (saveSelectionState sel) surf hs]
      simp [saveSelectionState, h]
      omega

/-- The concrete floating selection of the C6 counterexample: a baseline
sub-history of one entry and a live region surface. -/
def c6Sel : SelectionState ℕ :=
  { clearSelection with
      isFloating := true, tempSurface := some 0,
      tempHistory := [⟨0, 0, 0⟩] }

/-- C6 counterexample: thirty sub-history saves after the baseline leave the
sub-history undo stack with 31 entries — `saveSelectionState` never evicts,
so the claimed capacity bound of 30 does not hold. -/
theorem c6_subhistory_bound_counterexample :
    (saveSelectionState^[30] c6Sel).tempHistory.length = 31 := by
  simpa using tempHistory_length_iterate_save 30 c6Sel 0 rfl

/-- C6 (amended): the floating selection sub-history is kept by separate,
unbounded stacks in src/selection.js, not by the bounded layer history
manager: each save appends exactly one entry and performs no eviction, so
after k saves the stack holds its initial length plus k entries (for any k,
in particular beyond 30). -/
theorem c6_subhistory_unbounded_amended (sel : SelectionState β) (surf : β)
    (h : sel.tempSurface = some surf) :
    (saveSelectionState sel).tempHistory =
      sel.tempHistory ++ [⟨surf, sel.currentX, sel.currentY⟩] ∧
    (∀ k : ℕ, (saveSelectionState^[k] sel).tempHistory.length =
      sel.tempHistory.length + k) := by
  constructor
  · simp [saveSelectionState, h]
  · intro k
    exact tempHistory_length_iterate_save k sel surf h

/-- C6 witness: the amended theorem applied to the concrete floating
selection with baseline sub-history. -/
theorem c6_subhistory_unbounded_witness :
    c6Sel.tempSurface = some 0 ∧
    (saveSelectionState c6Sel).tempHistory =
      c6Sel.tempHistory ++ [⟨0, c6Sel.currentX, c6Sel.currentY⟩] ∧
    (saveSelectionState^[5] c6Sel).tempHistory.length =
      c6Sel.tempHistory.length + 5 :=
  ⟨rfl, (c6_subhistory_unbounded_amended c6Sel 0 rfl).1,
   (c6_subhistory_unbounded_amended c6Sel 0 rfl).2 5⟩

/-! ### Finalizing a lasso path: endSelection (src/selection.js lines 85-151)

The host-canvas steps — clipping the lasso and copying the region pixels out
of the layer (lines 111-123), and the destination-out fill that cuts the hole
(lines 125-134) — are embedded as the opaque operations `capture` and `cut`;
every guard, the bounding-box computation and every state-field update are
translated directly. -/

/-- The fold of src/selection.js lines 94-98 (`minX`), for a non-empty path;
the JS fold starts from Infinity, which over a non-empty list equals folding
from the first point. -/
def pathMinX : List (ℚ × ℚ) → ℚ
  | [] => 0
  | p :: ps => ps.foldl (fun a q => min a q.1) p.1

def pathMinY : List (ℚ × ℚ) → ℚ
  | [] => 0
  | p :: ps => ps.foldl (fun a q => min a q.2) p.2

def pathMaxX : List (ℚ × ℚ) → ℚ
  | [] => 0
  | p :: ps => ps.foldl (fun a q => max a q.1) p.1

def pathMaxY : List (ℚ × ℚ) → ℚ
  | [] => 0
  | p :: ps => ps.foldl (fun a q => max a q.2) p.2

/-- `width = Math.ceil(maxX - minX)` (src/selection.js line 99). -/
def selWidth (ps : List (ℚ × ℚ)) : ℤ := ⌈pathMaxX ps - pathMinX ps⌉

/-- `height = Math.ceil(maxY - minY)` (src/selection.js line 100). -/
def selHeight (ps : List (ℚ × ℚ)) : ℤ := ⌈pathMaxY ps - pathMinY ps⌉

/-- `endSelection` (src/selection.js lines 85-151): abort to the cleared
state when the path has fewer than 3 points or the ceiled bounding box is
degenerate, leaving the layer surface untouched; otherwise capture the
region, cut the hole, normalize the path, seed the sub-history with the
baseline snapshot and float. -/
def endSelection (capture : List (ℚ × ℚ) → ℚ → ℚ → Img → β)
    (cut : List (ℚ × ℚ) → Img → Img)
    (s : SelectionState β) (layer : Layer Img) : SelectionState β × Img :=
  if s.path.length < 3 then (clearSelection, layer.surface)
  else
    let minX := pathMinX s.path
    let minY := pathMinY s.path
    let width := selWidth s.path
    let height := selHeight s.path
    if width ≤ 0 ∨ height ≤ 0 then (clearSelection, layer.surface)
    else
      let img := capture s.path minX minY layer.surface
      ({ s with
          isDrawing := false,
          isFloating := true,
          path := s.path.map (fun p => (p.1 - minX, p.2 - minY)),
          imageData := some img,
          boundingBox := some (minX, minY, width, height),
          currentX := minX,
          currentY := minY,
          originLayerId := some layer.id,
          tempSurface := some img,
          tempHistory := s.tempHistory ++ [⟨img, minX, minY⟩],
          tempRedoStack := [] },
       cut s.path layer.surface)

/-- C9: a finalize attempt with fewer than 3 path points, or a bounding box
of zero width or zero height, is silently discarded: the selection state is
fully reset (Idle, no path, not floating) and the origin layer surface is
returned unchanged — no region is lifted and no hole is cut. -/
theorem c9_degenerate_selection_discarded {Img β : Type}
    (capture : List (ℚ × ℚ) → ℚ → ℚ → Img → β) (cut : List (ℚ × ℚ) → Img → Img)
    (s : SelectionState β) (layer : Layer Img)
    (h : s.path.length < 3 ∨ selWidth s.path = 0 ∨ selHeight s.path = 0) :
    endSelection capture cut s layer = (clearSelection, layer.surface) ∧
    (clearSelection : SelectionState β).isFloating = false ∧
    (clearSelection : SelectionState β).isDrawing = false ∧
    (clearSelection : SelectionState β).path = [] := by
  refine ⟨?_, rfl, rfl, rfl⟩
  by_cases h3 : s.path.length < 3
  · simp [endSelection, h3]
  · have hwh : selWidth s.path ≤ 0 ∨ selHeight s.path ≤ 0 := by
      rcases h with h | h | h
      · exact absurd h h3
      · exact Or.inl (le_of_eq h)
      · exact Or.inr (le_of_eq h)
    simp only [endSelection, if_neg h3]
    rw [if_pos hwh]

/-- The mid-lasso state of the C9 witness: three collinear points on a
vertical line, so the bounding box has zero width. -/
def c9Sel : SelectionState ℕ :=
  { clearSelection with
      isDrawing := true, path := [(0, 0), (0, 1), (0, 2)] }

theorem c9Sel_width_zero : selWidth c9Sel.path = 0 := by
  simp [c9Sel, clearSelection, selWidth, pathMaxX, pathMinX]

/-- C9 witness: a three-point vertical path has a zero-width bounding box;
the finalize attempt is discarded and the layer surface (here a bare
counter) is unchanged. -/
theorem c9_degenerate_selection_witness :
    (c9Sel.path.length < 3 ∨ selWidth c9Sel.path = 0 ∨ selHeight c9Sel.path = 0) ∧
    endSelection (fun _ _ _ img => img) (fun _ img => img + 1) c9Sel
      (⟨7, 42⟩ : Layer ℕ) = (clearSelection, 42) :=
  ⟨Or.inr (Or.inl c9Sel_width_zero),
   (c9_degenerate_selection_discarded (fun _ _ _ img => img) (fun _ img => img + 1)
      c9Sel ⟨7, 42⟩ (Or.inr (Or.inl c9Sel_width_zero))).1⟩

/-! ### Hit test: isPointInSelection (src/selection.js lines 262-275) -/

/-- The ray-casting loop of src/selection.js lines 267-273: each edge (i, j)
with j the previous index (wrapping to the last for i = 0) toggles the
parity when the horizontal ray from the query point crosses it. -/
def rayCast (path : List (ℚ × ℚ)) (offX offY checkX checkY : ℚ) : Bool :=
  (List.range path.length).foldl
    (fun inside i =>
      let j := if i = 0 then path.length - 1 else i - 1
      let pi := path.getD i (0, 0)
      let pj := path.getD j (0, 0)
      let xi := pi.1 + offX
      let yi := pi.2 + offY
      let xj := pj.1 + offX
      let yj := pj.2 + offY
      if (decide (yi > checkY) != decide (yj > checkY)) &&
          decide (checkX < (xj - xi) * (checkY - yi) / (yj - yi) + xi)
      then !inside else inside)
    false

/-- `isPointInSelection` (src/selection.js lines 262-275): false unless a
floating selection with a non-empty path exists; otherwise ray casting
against the stored path offset by the current position. -/
def isPointInSelection (sel : SelectionState β) (checkX checkY : ℚ) : Bool :=
  if ¬ sel.isFloating ∨ sel.path.isEmpty then false
  else rayCast sel.path sel.currentX sel.currentY checkX checkY

/-- C10: whenever no floating selection exists — the floating flag is down
(Idle or DrawingPath, including mid-lasso) or the stored path is empty — the
hit test returns false; hence a hit test can only succeed in the Floating
state. -/
theorem c10_hit_test_requires_floating (sel : SelectionState β) (x y : ℚ)
    (h : sel.isFloating = false ∨ sel.path = []) :
    isPointInSelection sel x y = false := by
  rcases h with h | h <;> simp [isPointInSelection, h]

/-- C10 witness: a mid-lasso state (drawing, three points recorded, not
floating) rejects a point that lies inside the drawn triangle. -/
theorem c10_hit_test_witness :
    ({ clearSelection with
       isDrawing := true, path := [(0, 0), (4, 0), (0, 4)] } : SelectionState ℕ).isFloating = false ∧
    isPointInSelection
      ({ clearSelection with
         isDrawing := true, path := [(0, 0), (4, 0), (0, 4)] } : SelectionState ℕ) 1 1 = false :=
  ⟨rfl, c10_hit_test_requires_floating _ 1 1 (Or.inl rfl)⟩

/-! ### Flood fill under the lasso clip: fillSelection (src/selection.js
lines 215-260)

The region surface is a width x height grid of RGBA pixels kept as a flat
list in row-major order; one `Color` entry stands for the four consecutive
bytes the JS code addresses at `(y * width + x) * 4`.  The canvas clip test
`ctx.isPointInPath` performed under `applySelectionClip` (the lasso path) is
a host-API call and is embedded as the boolean parameter `inClip`; the fill
color stands for `hexToRgba(fillColorHex)`.  The JS `while` loop is embedded
with explicit fuel; every theorem below holds for every fuel value. -/

structure Color where
  r : ℕ
  g : ℕ
  b : ℕ
  a : ℕ
deriving DecidableEq

structure Region where
  width : ℕ
  height : ℕ
  data : List Color
deriving DecidableEq

/-- `getPixelColor` (src/selection.js lines 24-27). -/
def getPixelColor (x y : ℤ) (width : ℕ) (data : List Color) : Color :=
  data.getD (y.toNat * width + x.toNat) ⟨0, 0, 0, 0⟩

/-- `setPixelColor` (src/selection.js lines 29-33). -/
def setPixelColor (x y : ℤ) (color : Color) (width : ℕ) (data : List Color) :
    List Color :=
  data.set (y.toNat * width + x.toNat) color

/-- `colorsMatch` (src/selection.js lines 35-41): per-channel absolute
difference strictly below the threshold 30. -/
def colorsMatch (c1 c2 : Color) : Bool :=
  decide (((c1.r : ℤ) - c2.r).natAbs < 30) &&
  decide (((c1.g : ℤ) - c2.g).natAbs < 30) &&
  decide (((c1.b : ℤ) - c2.b).natAbs < 30) &&
  decide (((c1.a : ℤ) - c2.a).natAbs < 30)

/-- The `while (queue.length > 0)` loop of src/selection.js lines 245-256:
pop the queue head; skip out-of-bounds pixels and pixels outside the clip;
when the pixel matches the target color, paint it with the fill color and
enqueue the four axis-neighbors. -/
def fillLoop (inClip : ℤ → ℤ → Bool) (w h : ℕ) (targetColor fillColor : Color) :
    ℕ → List (ℤ × ℤ) → List Color → List Color
  | 0, _, data => data
  | _ + 1, [], data => data
  | fuel + 1, (x, y) :: rest, data =>
      if x < 0 ∨ x ≥ (w : ℤ) ∨ y < 0 ∨ y ≥ (h : ℤ) then
        fillLoop inClip w h targetColor fillColor fuel rest data
      else if ¬ inClip x y then
        fillLoop inClip w h targetColor fillColor fuel rest data
      else if colorsMatch (getPixelColor x y w data) targetColor then
        fillLoop inClip w h targetColor fillColor fuel
          (rest ++ [(x + 1, y), (x - 1, y), (x, y + 1), (x, y - 1)])
          (setPixelColor x y fillColor w data)
      else
        fillLoop inClip w h targetColor fillColor fuel rest data

/-- `fillSelection` (src/selection.js lines 215-260): floor the seed into
region-local coordinates, bail out when the seed lies outside the clip or
outside the surface or when target and fill already match, otherwise run the
clip-confined flood fill on a working copy and write it back. -/
def fillSelection (inClip : ℤ → ℤ → Bool) (fuel : ℕ)
    (sel : SelectionState Region) (canvasX canvasY : ℚ) (fillColor : Color) :
    SelectionState Region :=
  if ¬ sel.isFloating then sel
  else
    match sel.tempSurface with
    | none => sel
    | some region =>
        let startX : ℤ := ⌊canvasX - sel.currentX⌋
        let startY : ℤ := ⌊canvasY - sel.currentY⌋
        if ¬ inClip startX startY then sel
        else if startX < 0 ∨ startX ≥ (region.width : ℤ) ∨
            startY < 0 ∨ startY ≥ (region.height : ℤ) then sel
        else
          let targetColor := getPixelColor startX startY region.width region.data
          if colorsMatch targetColor fillColor then sel
          else
            { sel with
                tempSurface := some
                  { region with
                      data := fillLoop inClip region.width region.height
                        targetColor fillColor fuel [(startX, startY)] region.data } }

/-- The pixel of the floating region surface at local coordinates
`(px, py)`; the zero color when no surface exists. -/
def regionPixel (sel : SelectionState Region) (px py : ℤ) : Color :=
  match sel.tempSurface with
  | none => ⟨0, 0, 0, 0⟩
  | some r => getPixelColor px py r.width r.data

theorem pixelIndex_inj {w x1 y1 x2 y2 : ℕ} (h1 : x1 < w) (h2 : x2 < w)
    (h : y1 * w + x1 = y2 * w + x2) : x1 = x2 ∧ y1 = y2 := by
  have hw : 0 < w := lt_of_le_of_lt (Nat.zero_le x1) h1
  have hx : x1 = x2 := by
    have e1 : (y1 * w + x1) % w = x1 := by
      rw [Nat.add_comm, Nat.add_mul_mod_self_right, Nat.mod_eq_of_lt h1]
    have e2 : (y2 * w + x2) % w = x2 := by
      rw [Nat.add_comm, Nat.add_mul_mod_self_right, Nat.mod_eq_of_lt h2]
    rw [← e1, ← e2, h]
  refine ⟨hx, ?_⟩
  have h' : y1 * w = y2 * w := by
    have := h
    rw [hx] at this
    exact Nat.add_right_cancel this
  exact Nat.eq_of_mul_eq_mul_right hw h'

theorem getPixelColor_setPixelColor_ne (w : ℕ) (x y px py : ℤ) (c : Color)
    (data : List Color) (hx0 : 0 ≤ x) (hxw : x < (w : ℤ)) (hy0 : 0 ≤ y)
    (hpx0 : 0 ≤ px) (hpxw : px < (w : ℤ)) (hpy0 : 0 ≤ py)
    (hne : ¬ (x = px ∧ y = py)) :
    getPixelColor px py w (setPixelColor x y c w data) =
      getPixelColor px py w data := by
  unfold getPixelColor setPixelColor
  have hidx : y.toNat * w + x.toNat ≠ py.toNat * w + px.toNat := by
    intro he
    have hxw' : x.toNat < w := by omega
    have hpxw' : px.toNat < w := by omega
    obtain ⟨hxx, hyy⟩ := pixelIndex_inj hxw' hpxw' he
    exact hne ⟨by omega, by omega⟩
  rw [List.getD_eq_getD_get?, List.getD_eq_getD_get?, List.get?_set_ne _ _ hidx]

theorem fillLoop_outside (inClip : ℤ → ℤ → Bool) (w h : ℕ)
    (targetColor fillColor : Color) (px py : ℤ) (hpx0 : 0 ≤ px)
    (hpxw : px < (w : ℤ)) (hpy0 : 0 ≤ py) (hc : inClip px py = false) :
    ∀ (fuel : ℕ) (queue : List (ℤ × ℤ)) (data : List Color),
      getPixelColor px py w
          (fillLoop inClip w h targetColor fillColor fuel queue data) =
        getPixelColor px py w data := by
  intro fuel
  induction fuel with
  | zero => intro queue data; rfl
  | succ fuel ih =>
      intro queue data
      match queue with
      | [] => rfl
      | (x, y) :: rest =>
          simp only [fillLoop]
          split
          · exact ih rest data
          · split
            · exact ih rest data
            · split
              · next hbounds hclip hmatch =>
                  rw [ih _ _]
                  apply getPixelColor_setPixelColor_ne <;> try omega
                  · intro ⟨hex, hey⟩
                    rw [hex, hey] at hclip
                    simp [hc] at hclip
              · exact ih rest data

/-- C8: with a clip supplied, the flood fill of `fillSelection` never
modifies a pixel outside the clip, whatever the colors and the fuel; and
when the seed point, floored into region-local coordinates, lies outside the
clip, the whole call is a no-op on the selection state. -/
theorem c8_fill_containment (inClip : ℤ → ℤ → Bool) (fuel : ℕ)
    (sel : SelectionState Region) (canvasX canvasY : ℚ) (fillColor : Color)
    (region : Region) (hreg : sel.tempSurface = some region) :
    (∀ px py : ℤ, 0 ≤ px → px < (region.width : ℤ) → 0 ≤ py →
      py < (region.height : ℤ) → inClip px py = false →
      regionPixel (fillSelection inClip fuel sel canvasX canvasY fillColor) px py =
        regionPixel sel px py) ∧
    (inClip ⌊canvasX - sel.currentX⌋ ⌊canvasY - sel.currentY⌋ = false →
      fillSelection inClip fuel sel canvasX canvasY fillColor = sel) := by
  constructor
  · intro px py hpx0 hpxw hpy0 hpyh hc
    unfold fillSelection
    split
    · rfl
    · simp only [hreg]
      split
      · rfl
      · split
        · rfl
        · split
          · rfl
          · simp only [regionPixel, hreg]
            exact fillLoop_outside inClip region.width region.height _ fillColor
              px py hpx0 hpxw hpy0 hc fuel _ region.data
  · intro hclip
    unfold fillSelection
    split
    · rfl
    · simp only [hreg, hclip]
      simp

/-- The concrete clip of the C8 witness: only the pixel (0, 0) lies inside
the lasso. -/
def c8Clip : ℤ → ℤ → Bool := fun x y => x == 0 && y == 0

/-- The concrete 2 x 2 region surface of the C8 witness. -/
def c8Region : Region :=
  { width := 2, height := 2,
    data := [⟨255, 0, 0, 255⟩, ⟨255, 0, 0, 255⟩, ⟨255, 0, 0, 255⟩, ⟨255, 0, 0, 255⟩] }

/-- The concrete floating selection of the C8 witness. -/
def c8Sel : SelectionState Region :=
  { clearSelection with
      isFloating := true, currentX := 1, currentY := 0,
      tempSurface := some c8Region }

/-- The seed of the C8 witness, floored into region-local coordinates, is
the pixel (1, 1), which lies outside the one-pixel clip. -/
theorem c8_seed_outside :
    c8Clip ⌊(5/2 : ℚ) - c8Sel.currentX⌋ ⌊(3/2 : ℚ) - c8Sel.currentY⌋ = false := by
  have h1 : ⌊(5/2 : ℚ) - c8Sel.currentX⌋ = 1 := by
    rw [show (5/2 : ℚ) - c8Sel.currentX = 3/2 from by norm_num [c8Sel, clearSelection]]
    rw [Int.floor_eq_iff] <;> norm_num
  have h2 : ⌊(3/2 : ℚ) - c8Sel.currentY⌋ = 1 := by
    rw [show (3/2 : ℚ) - c8Sel.currentY = 3/2 from by norm_num [c8Sel, clearSelection]]
    rw [Int.floor_eq_iff] <;> norm_num
  rw [h1, h2]; rfl

/-- C8 witness: the containment theorem applied to the 2 x 2 region with the
one-pixel clip: the seed (5/2, 3/2) floors to local (1, 1), outside the
clip, so the call is a no-op; and the out-of-clip pixel (1, 0) is left
unchanged. -/
theorem c8_fill_containment_witness :
    c8Sel.tempSurface = some c8Region ∧
    c8Clip ⌊(5/2 : ℚ) - c8Sel.currentX⌋ ⌊(3/2 : ℚ) - c8Sel.currentY⌋ = false ∧
    fillSelection c8Clip 10 c8Sel (5/2) (3/2) ⟨0, 0, 255, 255⟩ = c8Sel ∧
    regionPixel (fillSelection c8Clip 10 c8Sel (5/2) (3/2) ⟨0, 0, 255, 255⟩) 1 0 =
      regionPixel c8Sel 1 0 :=
  ⟨rfl, c8_seed_outside,
   (c8_fill_containment c8Clip 10 c8Sel (5/2) (3/2) ⟨0, 0, 255, 255⟩ c8Region rfl).2
     c8_seed_outside,
   (c8_fill_containment c8Clip 10 c8Sel (5/2) (3/2) ⟨0, 0, 255, 255⟩ c8Region rfl).1
     1 0 (by decide) (by decide) (by decide) (by decide) (by decide)⟩

/-! ## UI wiring: commit and the undo / delete-layer buttons

Embeds the handlers of the newest UI revision (src/unnamed/part_002, the
same code as src/unnamed/part_004 lines 346-712; src/ui.js is the
immediately preceding revision of the same file — where the two differ the
later one, marked MODIFIED in its comments, is embedded and the difference
is noted).  `Img` is the full-frame surface/snapshot type, `β` the region
surface type; `drawImage img r x y` embeds the host call that paints region
surface `r` onto full frame `img` at position `(x, y)`. -/

/-- The floating-selection stash recorded by the undo handler
(src/unnamed/part_002 lines 299-306); `initialState` is `tempHistory[0]`,
which JS leaves undefined on an empty array. -/
structure SavedSelection (β : Type) where
  path : List (ℚ × ℚ)
  originLayerId : Option ℕ
  initialState : Option (SelSnapshot β)
  tempHistory : List (SelSnapshot β)
  tempRedoStack : List (SelSnapshot β)
deriving DecidableEq

structure AppState (Img β : Type) where
  layers : List (Layer Img)
  activeLayerId : Option ℕ
  histories : List (ℕ × History Img)
  selection : SelectionState β
  lastUndoneSelection : Option (SavedSelection β)
deriving DecidableEq

variable {γ : Type}

/-- `getLayerById` (src/layers.js): first layer whose id equals the given
(possibly null) id. -/
def getLayerByIdApp (s : AppState Img β) (id? : Option ℕ) : Option (Layer Img) :=
  s.layers.find? (fun l => id? == some l.id)

/-- `getActiveLayer` (src/layers.js). -/
def getActiveLayerApp (s : AppState Img β) : Option (Layer Img) :=
  s.layers.find? (fun l => s.activeLayerId == some l.id)

/-- `historyByLayer.get(layerId)` (src/history.js). -/
def histFind (s : AppState Img β) (id : ℕ) : Option (History Img) :=
  (s.histories.find? (fun p => p.1 == id)).map Prod.snd

/-- `historyByLayer.set(layerId, ...)` for a layer that already has a
history: replace its entry. -/
def histUpdate (s : AppState Img β) (id : ℕ) (h : History Img) : AppState Img β :=
  { s with histories := s.histories.map (fun p => if p.1 == id then (p.1, h) else p) }

/-- `getHistoryLength` (src/history.js lines 172-174): length of the undo
stack, 0 for an unknown layer. -/
def getHistoryLengthApp (s : AppState Img β) (id : ℕ) : ℕ :=
  ((histFind s id).map (fun h => h.undoStack.length)).getD 0

/-- Writing to a layer context (`putImageData` / `drawImage` targets): the
layer of that id gets the new surface. -/
def setLayerSurface (s : AppState Img β) (id : ℕ) (img : Img) : AppState Img β :=
  { s with layers := s.layers.map (fun l => if l.id == id then { l with surface := img } else l) }

/-- Modelled from the spec: `getLastState` is imported from src/history.js
by the UI revisions (src/ui.js line 6, src/unnamed/part_002 lines 5-6) but
no revision of src/history.js in the repository defines its body.  Per spec
§3 the hole "is itself the most recent entry in the origin layer's history",
and the call site names its result "the canvas with the hole", so it returns
the newest undo-stack entry, `none` for an unknown layer. -/
def getLastState (s : AppState Img β) (id : ℕ) : Option Img :=
  (histFind s id).bind (fun h => h.undoStack.getLast?)

/-- Modelled from the spec: `replaceLastStateWithMultiple` is imported from
src/history.js but its body is not in the repository.  Spec §4.2
(`replaceTopWithSequence`) says it "pops the current top and pushes all of
snapshots in order", leaving earlier history undisturbed; a no-op for an
unknown layer. -/
def replaceLastStateWithMultiple (s : AppState Img β) (id : ℕ)
    (snaps : List Img) : AppState Img β :=
  match histFind s id with
  | none => s
  | some h => histUpdate s id { h with undoStack := h.undoStack.dropLast ++ snaps }

/-- `onDrawEnd(targetLayer)` (src/unnamed/part_002 lines 373-381): clear the
redo stash and save the target layer's current surface into its history
(silently a no-op for an uninitialized layer, per `saveState`). -/
def onDrawEnd (s : AppState Img β) (layer : Layer Img) : AppState Img β :=
  let s1 := { s with lastUndoneSelection := none }
  match histFind s1 layer.id with
  | none => s1
  | some h => histUpdate s1 layer.id (saveState h layer.surface)

/-- `commitSelection` (src/unnamed/part_002 lines 64-118; identical to
src/unnamed/part_004 lines 386-444, the revision marked MODIFIED to use the
hole state; src/ui.js, the previous revision, used the penultimate state
instead).  Not floating, or origin layer gone: just clear.  No edits while
floating (sub-history still the single baseline): paste the region onto the
live surface and save one state.  Otherwise the merge protocol: replay every
sub-history entry after the baseline onto the hole checkpoint, replace the
top of the origin history with the resulting list, and apply the final
reconstruction to the live surface.  The `getD default` stands for the
non-null `tempCanvas` every floating selection carries. -/
def commitSelection [Inhabited β] (drawImage : Img → β → ℚ → ℚ → Img)
    (s : AppState Img β) : AppState Img β :=
  let sel := s.selection
  if ¬ sel.isFloating then { s with selection := clearSelection }
  else
    match getLayerByIdApp s sel.originLayerId with
    | none => { s with selection := clearSelection }
    | some originLayer =>
      if sel.tempHistory.length ≤ 1 then
        let newSurface := drawImage originLayer.surface (sel.tempSurface.getD default)
          sel.currentX sel.currentY
        let s1 := setLayerSurface s originLayer.id newSurface
        let s2 := onDrawEnd s1 { originLayer with surface := newSurface }
        { s2 with selection := clearSelection }
      else
        match getLastState s originLayer.id with
        | none =>
            let newSurface := drawImage originLayer.surface (sel.tempSurface.getD default)
              sel.currentX sel.currentY
            let s1 := setLayerSurface s originLayer.id newSurface
            let s2 := onDrawEnd s1 { originLayer with surface := newSurface }
            { s2 with selection := clearSelection }
        | some layerWithHoleState =>
            let newHistoryStates := (sel.tempHistory.drop 1).map
              (fun step => drawImage layerWithHoleState step.imageData step.x step.y)
            let s1 := replaceLastStateWithMultiple s originLayer.id newHistoryStates
            let s2 := match newHistoryStates.getLast? with
              | some finalState => setLayerSurface s1 originLayer.id finalState
              | none => s1
            { s2 with selection := clearSelection }

/-- `undo(layerId, ctx)` (src/history.js lines 142-150) at the app level:
pop the top of the layer history onto its redo stack and restore the new top
onto the layer surface; a no-op at the baseline or for an unknown layer. -/
def undoLayerApp (s : AppState Img β) (layer : Layer Img) : AppState Img β :=
  match histFind s layer.id with
  | none => s
  | some h =>
      if h.undoStack.length > 1 then
        let s1 := histUpdate s layer.id h.undo
        match h.undoStack.dropLast.getLast? with
        | some prevState => setLayerSurface s1 layer.id prevState
        | none => s1
      else s

/-- The undo-button handler (src/unnamed/part_002 lines 291-316; src/ui.js
lines 293-309 differ only in not guarding on the layer history length and
not recording the stash): a floating selection with sub-history edits undoes
the sub-history; otherwise the origin layer (when floating) or the active
layer (when not) is undone, and when a selection was floating it is stashed
and force-cleared. -/
def undoBtnClick (s : AppState Img β) : AppState Img β :=
  let sel := s.selection
  if sel.isFloating && decide (sel.tempHistory.length > 1) then
    { s with selection := undoSelectionChange sel }
  else
    match (if sel.isFloating then getLayerByIdApp s sel.originLayerId
           else getActiveLayerApp s) with
    | some layer =>
        if getHistoryLengthApp s layer.id > 1 then
          let stash : SavedSelection β :=
            ⟨sel.path, sel.originLayerId, sel.tempHistory.head?,
             sel.tempHistory, sel.tempRedoStack⟩
          let s1 := if sel.isFloating then
              { s with lastUndoneSelection := some stash }
            else s
          let s2 := undoLayerApp s1 layer
          if sel.isFloating then { s2 with selection := clearSelection } else s2
        else s
    | none => s

/-- `deleteHistoryForLayer` (src/history.js lines 105-108). -/
def deleteHistoryForLayerApp (s : AppState Img β) (id : ℕ) : AppState Img β :=
  { s with histories := s.histories.filter (fun p => !(p.1 == id)) }

/-- `deleteActiveLayer` (src/layers.js lines 53-73) acting on the app
state. -/
def deleteActiveLayerApp (s : AppState Img β) : AppState Img β :=
  let r := deleteActiveLayer { layers := s.layers, activeLayerId := s.activeLayerId }
  { s with layers := r.2.layers, activeLayerId := r.2.activeLayerId }

/-- The delete-layer-button handler (src/unnamed/part_002 lines 338-347;
src/ui.js lines 326-335 is identical in behavior), with the confirm dialog
answered yes: drop the active layer's history, then delete the layer.  The
selection state is not consulted. -/
def deleteLayerBtnClick (s : AppState Img β) : AppState Img β :=
  match getActiveLayerApp s with
  | none => s
  | some layerToDelete =>
      deleteActiveLayerApp (deleteHistoryForLayerApp s layerToDelete.id)

theorem find?_map_comm {μ : Type} (g : μ → μ) (p : μ → Bool)
    (hpg : ∀ x, p (g x) = p x) (l : List μ) :
    (l.map g).find? p = (l.find? p).map g := by
  induction l with
  | nil => rfl
  | cons a t ih =>
      by_cases ha : p a = true
      · rw [List.map_cons, List.find?_cons_of_pos _ (by rw [hpg]; exact ha),
          List.find?_cons_of_pos _ ha]
        rfl
      · rw [List.map_cons, List.find?_cons_of_neg _ (by rw [hpg]; simpa using ha),
          List.find?_cons_of_neg _ (by simpa using ha), ih]

theorem histFind_histUpdate {s : AppState Img β} {id : ℕ} {h0 : History Img}
    (h1 : History Img) (hf : histFind s id = some h0) :
    histFind (histUpdate s id h1) id = some h1 := by
  unfold histFind histUpdate
  dsimp only
  rw [find?_map_comm _ _ (fun x => by by_cases hx : (x.1 == id) = true <;> simp [hx])]
  cases hfq : s.histories.find? (fun p => p.1 == id) with
  | none => unfold histFind at hf; rw [hfq] at hf; simp at hf
  | some q =>
      have hq2 : q.1 = id := by
        have := List.find?_some hfq
        simpa using this
      simp [hq2]

theorem getLayerByIdApp_setLayerSurface {s : AppState Img β} {id? : Option ℕ}
    {L : Layer Img} (img : Img) (hf : getLayerByIdApp s id? = some L) :
    getLayerByIdApp (setLayerSurface s L.id img) id? = some { L with surface := img } := by
  unfold getLayerByIdApp setLayerSurface at *
  dsimp only
  rw [find?_map_comm _ _
    (fun x => by by_cases hx : (x.id == L.id) = true <;> simp [hx])]
  rw [hf]
  simp

/-- C1: committing a floating selection whose sub-history holds the baseline
plus N >= 1 edits replaces the hole checkpoint at the top of the origin
layer's undo stack with exactly N full-layer checkpoints, one per edit in
order, each obtained by painting that edit's region snapshot at its recorded
position onto the hole state; earlier undo entries and the redo stack are
untouched, and the live origin-layer surface ends equal to the last
reconstructed checkpoint, with the selection cleared to Idle. -/
theorem c1_commit_merge_protocol {Img β : Type} [Inhabited β]
    (drawImage : Img → β → ℚ → ℚ → Img) (s : AppState Img β)
    (originLayer : Layer Img) (h : History Img) (hole : Img) (N : ℕ)
    (hfloat : s.selection.isFloating = true)
    (horigin : getLayerByIdApp s s.selection.originLayerId = some originLayer)
    (hN : s.selection.tempHistory.length = N + 1) (hN1 : 1 ≤ N)
    (hhist : histFind s originLayer.id = some h)
    (hhole : h.undoStack.getLast? = some hole) :
    ((s.selection.tempHistory.drop 1).map
        (fun step => drawImage hole step.imageData step.x step.y)).length = N ∧
    histFind (commitSelection drawImage s) originLayer.id =
      some { undoStack := h.undoStack.dropLast ++
               (s.selection.tempHistory.drop 1).map
                 (fun step => drawImage hole step.imageData step.x step.y),
             redoStack := h.redoStack } ∧
    (getLayerByIdApp (commitSelection drawImage s) (some originLayer.id)).map
        Layer.surface =
      ((s.selection.tempHistory.drop 1).map
        (fun step => drawImage hole step.imageData step.x step.y)).getLast? ∧
    (commitSelection drawImage s).selection = clearSelection := by
  set newStates := (s.selection.tempHistory.drop 1).map
    (fun step => drawImage hole step.imageData step.x step.y) with hns
  have hlenN : newStates.length = N := by
    rw [hns, List.length_map, List.length_drop, hN]
    omega
  have hne : newStates ≠ [] := by
    intro hc
    rw [hc] at hlenN
    simp at hlenN
    omega
  obtain ⟨final, hfinal⟩ : ∃ f, newStates.getLast? = some f := by
    cases hq : newStates.getLast? with
    | none => exact absurd (List.getLast?_eq_none_iff.mp hq) hne
    | some f => exact ⟨f, rfl⟩
  have hsel : s.selection.originLayerId = some originLayer.id := by
    have hp := List.find?_some horigin
    simpa using hp
  have hlast : getLastState s originLayer.id = some hole := by
    simp [getLastState, hhist, hhole]
  have hle : ¬ (s.selection.tempHistory.length ≤ 1) := by omega
  have hred : commitSelection drawImage s =
      { setLayerSurface (replaceLastStateWithMultiple s originLayer.id newStates)
          originLayer.id final with selection := clearSelection } := by
    unfold commitSelection
    simp only [hfloat, Bool.not_true, horigin, hlast, ← hns, hfinal]
    rw [if_neg (by simp), if_neg hle]
  have hrep : replaceLastStateWithMultiple s originLayer.id newStates =
      histUpdate s originLayer.id
        { undoStack := h.undoStack.dropLast ++ newStates, redoStack := h.redoStack } := by
    unfold replaceLastStateWithMultiple
    rw [hhist]
  have horig2 : getLayerByIdApp (replaceLastStateWithMultiple s originLayer.id
      newStates) (some originLayer.id) = some originLayer := by
    rw [hrep]
    show getLayerByIdApp s (some originLayer.id) = some originLayer
    rw [← hsel]
    exact horigin
  refine ⟨hlenN, ?_, ?_, ?_⟩
  · rw [hred, hrep]
    exact histFind_histUpdate _ hhist
  · rw [hred, hfinal]
    show (getLayerByIdApp (setLayerSurface (replaceLastStateWithMultiple s
        originLayer.id newStates) originLayer.id final) (some originLayer.id)).map
      Layer.surface = some final
    rw [getLayerByIdApp_setLayerSurface final horig2]
    rfl
  · rw [hred]

/-- The concrete painting function of the C1 witness: appends the region
snapshot value to the base frame, so every reconstruction is traceable. -/
def c1Draw : ℕ → ℕ → ℚ → ℚ → ℕ := fun img r _ _ => img * 1000 + r

/-- The concrete app state of the C1 witness: one layer (id 1, surface 99)
whose history is [10, 20] with 20 the hole checkpoint, and a floating
selection on it with baseline plus two edits (region snapshots 7 and 8). -/
def c1App : AppState ℕ ℕ :=
  { layers := [⟨1, 99⟩],
    activeLayerId := some 1,
    histories := [(1, ⟨[10, 20], []⟩)],
    selection := { clearSelection with
        isFloating := true, originLayerId := some 1, tempSurface := some 8,
        tempHistory := [⟨0, 0, 0⟩, ⟨7, 1, 2⟩, ⟨8, 3, 4⟩] },
    lastUndoneSelection := none }

/-- C1 witness: the merge-protocol theorem applied to the concrete state:
the two edits become exactly the two checkpoints 20007 and 20008 (snapshot
painted onto the hole 20), the earlier entry 10 is untouched, the live
surface ends at 20008 and the selection is cleared. -/
theorem c1_commit_merge_protocol_witness :
    c1App.selection.isFloating = true ∧
    getLayerByIdApp c1App c1App.selection.originLayerId = some ⟨1, 99⟩ ∧
    c1App.selection.tempHistory.length = 2 + 1 ∧ 1 ≤ 2 ∧
    histFind c1App 1 = some ⟨[10, 20], []⟩ ∧
    (⟨[10, 20], []⟩ : History ℕ).undoStack.getLast? = some 20 ∧
    histFind (commitSelection c1Draw c1App) 1 = some ⟨[10, 20007, 20008], []⟩ ∧
    (getLayerByIdApp (commitSelection c1Draw c1App) (some 1)).map Layer.surface =
      some 20008 ∧
    (commitSelection c1Draw c1App).selection = clearSelection :=
  ⟨rfl, by decide, by decide, by decide, by decide, by decide,
   (c1_commit_merge_protocol c1Draw c1App ⟨1, 99⟩ ⟨[10, 20], []⟩ 20 2
      rfl (by decide) (by decide) (by decide) (by decide) (by decide)).2.1,
   (c1_commit_merge_protocol c1Draw c1App ⟨1, 99⟩ ⟨[10, 20], []⟩ 20 2
      rfl (by decide) (by decide) (by decide) (by decide) (by decide)).2.2.1,
   (c1_commit_merge_protocol c1Draw c1App ⟨1, 99⟩ ⟨[10, 20], []⟩ 20 2
      rfl (by decide) (by decide) (by decide) (by decide) (by decide)).2.2.2⟩

/-- The concrete app state of the C4 counterexample: two layers, the active
layer (id 1) is the origin of a floating selection with a baseline-only
sub-history. -/
def c4App : AppState ℕ ℕ :=
  { layers := [⟨1, 0⟩, ⟨2, 0⟩],
    activeLayerId := some 1,
    histories := [(1, ⟨[10, 11], []⟩), (2, ⟨[20], []⟩)],
    selection := { clearSelection with
        isFloating := true, originLayerId := some 1,
        tempSurface := some 0, tempHistory := [⟨0, 0, 0⟩] },
    lastUndoneSelection := none }

/-- C4 counterexample: deleting the origin layer while the selection floats
does not clear the selection — after the delete-layer click the origin layer
is gone, yet the selection is still floating and unchanged, contradicting
the claim that deletion force-clears it to Idle. -/
theorem c4_stale_selection_counterexample :
    c4App.selection.isFloating = true ∧
    getLayerByIdApp c4App c4App.selection.originLayerId = some ⟨1, 0⟩ ∧
    getLayerByIdApp (deleteLayerBtnClick c4App) (some 1) = none ∧
    (deleteLayerBtnClick c4App).selection.isFloating = true ∧
    (deleteLayerBtnClick c4App).selection = c4App.selection := by
  decide

/-- C4 (amended): undoing the origin layer while a selection floats (taken
when the sub-history has no edits and the origin history can be undone)
force-clears the selection to Idle; deleting the origin layer does not —
the stale floating selection survives the deletion and is only cleared at
the next commit attempt, when `commitSelection` finds the origin layer
missing and resets the selection, leaving the rest of the state unchanged. -/
theorem c4_stale_selection_amended {Img β : Type} [Inhabited β]
    (drawImage : Img → β → ℚ → ℚ → Img) (s : AppState Img β) :
    (∀ layer : Layer Img,
      s.selection.isFloating = true →
      s.selection.tempHistory.length ≤ 1 →
      getLayerByIdApp s s.selection.originLayerId = some layer →
      getHistoryLengthApp s layer.id > 1 →
      (undoBtnClick s).selection = clearSelection) ∧
    (s.selection.isFloating = true →
      getLayerByIdApp s s.selection.originLayerId = none →
      commitSelection drawImage s = { s with selection := clearSelection }) := by
  constructor
  · intro layer hfloat hlen horigin hhl
    have hd : decide (s.selection.tempHistory.length > 1) = false := by
      simp
      omega
    unfold undoBtnClick
    simp [hfloat, hd, horigin, hhl]
  · intro hfloat hnone
    unfold commitSelection
    simp only [hfloat, Bool.not_true, hnone]
    rfl

/-- The concrete stale state of the C4 witness: the origin layer (id 1) of
the floating selection has already been deleted. -/
def c4Stale : AppState ℕ ℕ :=
  { layers := [⟨2, 0⟩],
    activeLayerId := some 2,
    histories := [(2, ⟨[20], []⟩)],
    selection := c4App.selection,
    lastUndoneSelection := none }

/-- C4 witness: the amended theorem applied to the concrete states — the
undo click on the floating state clears the selection, and a commit attempt
on the stale state (origin layer deleted) clears it too. -/
theorem c4_stale_selection_amended_witness :
    (c4App.selection.isFloating = true ∧
     c4App.selection.tempHistory.length ≤ 1 ∧
     getLayerByIdApp c4App c4App.selection.originLayerId = some ⟨1, 0⟩ ∧
     getHistoryLengthApp c4App 1 > 1 ∧
     (undoBtnClick c4App).selection = clearSelection) ∧
    (c4Stale.selection.isFloating = true ∧
     getLayerByIdApp c4Stale c4Stale.selection.originLayerId = none ∧
     commitSelection c1Draw c4Stale = { c4Stale with selection := clearSelection }) :=
  ⟨⟨rfl, by decide, by decide, by decide,
    (c4_stale_selection_amended c1Draw c4App).1 ⟨1, 0⟩ rfl (by decide) (by decide)
      (by decide)⟩,
   ⟨rfl, by decide,
    (c4_stale_selection_amended c1Draw c4Stale).2 rfl (by decide)⟩⟩

end Painting
